import Mathlib

/-!
Verification of the Dashbot interaction-logging and reconciliation pipeline.

Shallow embedding of the repository's core logic:
  * `sync_csv_db.py` / `auto_sync.py` : `CSVDBSync.csv_to_db` (the CSV → store
    reconciler; `AutoSync.sync_csv_to_db` is a verbatim copy of the same logic),
  * `app.py` : `generate_bot_reply` (the intent responder), the `/chat` handler,
    the `/rate` handler and the `/stats` aggregator.

Machine reals (Python floats) are modelled as `Rat`; SQL NULL / Python `None` /
pandas `NaN` as `Option` / the `Cell.absent` constructor.  Wall-clock time, the
generated session token and the measured response time are environmental inputs
and are passed as explicit parameters.
-/

/-- Python whitespace characters stripped by `str.strip()`. -/
def pySpace (c : Char) : Bool :=
  c == ' ' || c == '\t' || c == '\n' || c == '\r' ||
  c.toNat = 0x0b || c.toNat = 0x0c

/-- Python `str.strip()`: drop whitespace from both ends. -/
def pyStrip (s : String) : String :=
  ⟨(((s.toList.dropWhile pySpace).reverse).dropWhile pySpace).reverse⟩

/-- Characters of a Python numeric literal body. -/
def digitsToNat (cs : List Char) : Nat :=
  cs.foldl (fun a c => a * 10 + (c.toNat - ('0').toNat)) 0

/-- A nonempty all-digit character list parses to its value, else fails. -/
def parseDigits (cs : List Char) : Option Nat :=
  if cs ≠ [] ∧ cs.all Char.isDigit then some (digitsToNat cs) else none

/-- Optional sign followed by digits. -/
def parseSigned (cs : List Char) : Option Int :=
  match cs with
  | '+' :: rest => (parseDigits rest).map (fun n => (n : Int))
  | '-' :: rest => (parseDigits rest).map (fun n => -(n : Int))
  | _ => (parseDigits cs).map (fun n => (n : Int))

/-- Python `int(s)` on a string: strip whitespace, optional sign, decimal
digits; anything else raises `ValueError` (modelled as `none`).  Underscore
separators and non-decimal bases are outside the modelled subset. -/
def strToInt (s : String) : Option Int := parseSigned (pyStrip s).toList

/-- Digit lists around an optional single decimal point: `d*.d*` with at least
one digit overall, as accepted by Python `float(s)`. -/
def parseDecimal (cs : List Char) : Option Rat :=
  let ip := cs.takeWhile (fun c => c ≠ '.')
  let rest := cs.dropWhile (fun c => c ≠ '.')
  match rest with
  | [] => (parseDigits ip).map (fun n => (n : Rat))
  | '.' :: fp =>
    if (ip ++ fp) ≠ [] ∧ (ip ++ fp).all Char.isDigit then
      some ((digitsToNat ip : Rat) + (digitsToNat fp : Rat) / (10 : Rat) ^ fp.length)
    else none
  | _ => none

/-- Optional sign followed by a decimal literal. -/
def parseSignedRat (cs : List Char) : Option Rat :=
  match cs with
  | '+' :: rest => parseDecimal rest
  | '-' :: rest => (parseDecimal rest).map (fun q => -q)
  | _ => parseDecimal cs

/-- Python `float(s)` on a string: strip whitespace, optional sign, decimal
form; exponent notation and `inf`/`nan` are outside the modelled subset. -/
def strToRat (s : String) : Option Rat := parseSignedRat (pyStrip s).toList

/-- Python `int(q)` on a number truncates toward zero. -/
def ratTruncToInt (q : Rat) : Int := if 0 ≤ q then q.floor else q.ceil

/-- One CSV cell as handed to the sync loop by `pandas`: `absent` is a missing
column or `NaN`, `num` a numeric cell (ints, floats and bools, the latter as
0/1), `text` a non-numeric-typed string cell. -/
inductive Cell where
  | absent : Cell
  | num (q : Rat) : Cell
  | text (s : String) : Cell
deriving DecidableEq

/-- The expression `int(x) if pd.notna(x) else 1` used for `resolved`
(`sync_csv_db.py` line 157): absent/NaN falls back to 1, a numeric cell is
truncated, a string cell is parsed or raises `ValueError`. -/
def pyIntD1 : Cell → Except String Int
  | .absent => .ok 1
  | .num q => .ok (ratTruncToInt q)
  | .text s =>
    match strToInt s with
    | some n => .ok n
    | none => .error "ValueError"

/-- The expression `int(x) if pd.notna(x) else None` used for `rating`
(`sync_csv_db.py` line 158). -/
def pyIntOpt : Cell → Except String (Option Int)
  | .absent => .ok none
  | .num q => .ok (some (ratTruncToInt q))
  | .text s =>
    match strToInt s with
    | some n => .ok (some n)
    | none => .error "ValueError"

/-- The expression `float(x) if pd.notna(x) else None` used for
`response_time` (`sync_csv_db.py` line 159). -/
def pyFloatOpt : Cell → Except String (Option Rat)
  | .absent => .ok none
  | .num q => .ok (some q)
  | .text s =>
    match strToRat s with
    | some q => .ok (some q)
    | none => .error "ValueError"

/-- One parsed CSV row as produced by `pd.read_csv`, keyed by `id`.  The five
text columns and `intent`/`channel`/`language` carry `none` when the column is
missing (so that `row.get(key, default)` takes its default); the three numeric
columns carry a `Cell`. -/
structure Row where
  id : Int
  user_id : Option String
  session_id : Option String
  timestamp : Option String
  query_text : Option String
  bot_response : Option String
  intent : Option String
  resolved : Cell
  rating : Cell
  response_time : Cell
  channel : Option String
  language : Option String
deriving DecidableEq

/-- One row of the `interaction_log` table (columns of the SQLite schema in
`sync_csv_db.py` lines 49-64 and of the SQLAlchemy model in `app.py`).
`resolved` is stored as an integer, as in the SQLite schema. -/
structure Record where
  id : Int
  user_id : String
  session_id : String
  timestamp : String
  query_text : String
  bot_response : String
  intent : Option String
  resolved : Int
  rating : Option Int
  response_time : Option Rat
  channel : String
  language : String
deriving DecidableEq

/-- The `data = {...}` dictionary built for one CSV row (`sync_csv_db.py`
lines 149-162): field coercions in source order; the first coercion that
raises aborts the whole run. -/
def coerceRow (r : Row) : Except String Record :=
  match pyIntD1 r.resolved, pyIntOpt r.rating, pyFloatOpt r.response_time with
  | .ok res, .ok rat, .ok rt =>
    .ok { id := r.id
          user_id := r.user_id.getD ""
          session_id := r.session_id.getD ""
          timestamp := r.timestamp.getD ""
          query_text := r.query_text.getD ""
          bot_response := r.bot_response.getD ""
          intent := r.intent
          resolved := res
          rating := rat
          response_time := rt
          channel := r.channel.getD "web"
          language := r.language.getD "ru" }
  | .error e, _, _ => .error e
  | _, .error e, _ => .error e
  | _, _, .error e => .error e

/-- The per-row upsert (`sync_csv_db.py` lines 164-195): `SELECT id WHERE id=?`
then `UPDATE ... WHERE id=?` in place, or `INSERT` (appended at the end of the
table). -/
def upsert (rec : Record) (db : List Record) : List Record :=
  if db.any (fun r => r.id == rec.id) then
    db.map (fun r => if r.id == rec.id then rec else r)
  else db ++ [rec]

/-- The `for _, row in df.iterrows()` loop (`sync_csv_db.py` lines 147-195):
coerce and upsert each row in order; a `ValueError` in a coercion propagates
out of the loop into the enclosing `except` block. -/
def applyRows : List Row → List Record → Except String (List Record)
  | [], db => .ok db
  | r :: rs, db =>
    match coerceRow r with
    | .ok rec => applyRows rs (upsert rec db)
    | .error e => .error e

/-- State of the CSV file when a sync run starts: the file is missing, the
file exists but `pd.read_csv` raises a (non-`EmptyDataError`) parse error, or
it parses to a list of rows (`EmptyDataError` and a header-only file both give
the empty row list, `sync_csv_db.py` lines 113-117). -/
inductive CsvInput where
  | missing : CsvInput
  | malformed : CsvInput
  | rows (rs : List Row) : CsvInput
deriving DecidableEq

/-- Rows of a `CsvInput` (empty for the two failure states). -/
def rowsOf : CsvInput → List Row
  | .missing => []
  | .malformed => []
  | .rows rs => rs

/-- The `DELETE FROM interaction_log WHERE id IN (existing - csv)` step
(`sync_csv_db.py` lines 132-144): keep exactly the store rows whose id occurs
in the CSV. -/
def keptRows (rs : List Row) (db : List Record) : List Record :=
  db.filter (fun r => (rs.map Row.id).contains r.id)

/-- `CSVDBSync.csv_to_db` (`sync_csv_db.py` lines 105-205; `auto_sync.py`
lines 48-147 is the same logic verbatim).  Returns the success flag and the
resulting table.  A missing file returns `False` before touching the store; a
parse error of the whole file is caught by the outer `except` and returns
`False`; an empty frame deletes every row and commits; otherwise deletes and
per-row upserts run under the single implicit transaction that is committed
only at the end, so a mid-loop `ValueError` leaves the store untouched. -/
def csv_to_db (input : CsvInput) (db : List Record) : Bool × List Record :=
  match input with
  | .missing => (false, db)
  | .malformed => (false, db)
  | .rows rs =>
    if rs.isEmpty then (true, [])
    else
      match applyRows rs (keptRows rs db) with
      | .ok db2 => (true, db2)
      | .error _ => (false, db)

/-- Whether an `Except` is a success. -/
def exceptIsOk {α : Type} : Except String α → Bool
  | .ok _ => true
  | .error _ => false

/-- Python ASCII and Cyrillic lowercasing, the alphabets `str.lower()` touches
in this code base. -/
def pyLowerChar (c : Char) : Char :=
  if 'A' ≤ c ∧ c ≤ 'Z' then Char.ofNat (c.toNat + 32)
  else if 0x410 ≤ c.toNat ∧ c.toNat ≤ 0x42F then Char.ofNat (c.toNat + 0x20)
  else if c.toNat = 0x401 then Char.ofNat 0x451
  else c

/-- `user_text.lower()` (`app.py` line 54). -/
def pyLower (s : String) : String := ⟨s.toList.map pyLowerChar⟩

/-- Needle is a character-list head of hay. -/
def headMatch : List Char → List Char → Bool
  | [], _ => true
  | _ :: _, [] => false
  | c :: cs, h :: hs => c == h && headMatch cs hs

/-- Needle occurs contiguously somewhere in hay. -/
def occursInChars (needle : List Char) : List Char → Bool
  | [] => headMatch needle []
  | h :: hs => headMatch needle (h :: hs) || occursInChars needle hs

/-- Python's substring test `needle in hay`. -/
def pyIn (needle hay : String) : Bool := occursInChars needle.toList hay.toList

/-- `any(kw in text for kw in kws)`; the two-keyword `or` chains of
`generate_bot_reply` are the same test over a two-element list. -/
def containsAny (kws : List String) (text : String) : Bool :=
  kws.any (fun k => pyIn k text)

/-- `generate_bot_reply` (`app.py` lines 47-106): lowercase, then the if/elif
chain in source order.  The wall-clock time and date strings interpolated into
the time/date replies are passed as parameters `nowT`/`nowD`; the
`time.sleep` calls are non-functional and dropped. -/
def generate_bot_reply (nowT nowD : String) (user_text : String) :
    String × String × Bool :=
  let text := pyLower user_text
  if containsAny ["привет", "здравствуй", "hello", "hi", "добрый день",
      "добрый вечер", "доброе утро"] text then
    ("Здравствуйте! Чем могу помочь?", "greeting", true)
  else if containsAny ["время", "который час"] text then
    ("Сейчас " ++ nowT ++ ".", "time_query", true)
  else if containsAny ["дата", "какое число", "какой день", "число"] text then
    ("Сегодня " ++ nowD ++ ".", "date_query", true)
  else if containsAny ["погода", "дождь", "солнце"] text then
    ("К сожалению, я не могу проверить погоду. Рекомендую посмотреть в приложении погоды.",
     "weather_query", false)
  else if containsAny ["помощь", "help", "что ты умеешь", "функции"] text then
    ("Я умею отвечать на приветствия, говорить время и дату, а также отвечать на простые вопросы. Попробуйте спросить что-то простое!",
     "help_request", true)
  else if containsAny ["спасибо", "благодарю", "thanks", "thank you"] text then
    ("Пожалуйста! Рад был помочь!", "thanks", true)
  else if containsAny ["пока", "до свидания", "bye", "goodbye", "увидимся"] text then
    ("До свидания! Хорошего дня!", "goodbye", true)
  else if containsAny ["кто ты", "что ты", "как тебя зовут", "имя"] text then
    ("Я простой чат-бот, созданный для демонстрации. Меня зовут Бот!",
     "bot_info", true)
  else if containsAny ["возраст", "сколько тебе"] text then
    ("Я только что родился в этом коде! 😊", "bot_info", true)
  else
    ("Извините, я не понял вопрос. Попробуйте сформулировать по-другому или спросите о времени, дате или просто поздоровайтесь!",
     "unknown", false)

/-- One keyword category of the responder, for the priority-table reading of
the dispatch. -/
structure RuleC where
  kws : List String
  reply : String
  intent : String
  resolved : Bool

/-- The nine categories in the fixed source priority order: greeting,
time_query, date_query, weather_query, help_request, thanks, goodbye,
bot_info, bot_info (age). -/
def categories (nowT nowD : String) : List RuleC :=
  [ ⟨["привет", "здравствуй", "hello", "hi", "добрый день", "добрый вечер",
      "доброе утро"], "Здравствуйте! Чем могу помочь?", "greeting", true⟩,
    ⟨["время", "который час"], "Сейчас " ++ nowT ++ ".", "time_query", true⟩,
    ⟨["дата", "какое число", "какой день", "число"], "Сегодня " ++ nowD ++ ".",
     "date_query", true⟩,
    ⟨["погода", "дождь", "солнце"],
     "К сожалению, я не могу проверить погоду. Рекомендую посмотреть в приложении погоды.",
     "weather_query", false⟩,
    ⟨["помощь", "help", "что ты умеешь", "функции"],
     "Я умею отвечать на приветствия, говорить время и дату, а также отвечать на простые вопросы. Попробуйте спросить что-то простое!",
     "help_request", true⟩,
    ⟨["спасибо", "благодарю", "thanks", "thank you"], "Пожалуйста! Рад был помочь!",
     "thanks", true⟩,
    ⟨["пока", "до свидания", "bye", "goodbye", "увидимся"], "До свидания! Хорошего дня!",
     "goodbye", true⟩,
    ⟨["кто ты", "что ты", "как тебя зовут", "имя"],
     "Я простой чат-бот, созданный для демонстрации. Меня зовут Бот!", "bot_info", true⟩,
    ⟨["возраст", "сколько тебе"], "Я только что родился в этом коде! 😊", "bot_info", true⟩ ]

/-- The unknown fallback triple of the responder. -/
def unknownTriple : String × String × Bool :=
  ("Извините, я не понял вопрос. Попробуйте сформулировать по-другому или спросите о времени, дате или просто поздоровайтесь!",
   "unknown", false)

/-- Specification-side reading of the dispatch: the first category in priority
order whose keyword set has a substring match in the lowercased text wins;
otherwise the unknown fallback. -/
def firstMatchSpec (nowT nowD : String) (user_text : String) :
    String × String × Bool :=
  match (categories nowT nowD).find?
      (fun c => containsAny c.kws (pyLower user_text)) with
  | some c => (c.reply, c.intent, c.resolved)
  | none => unknownTriple

/-- JSON body of a `POST /chat` request (`app.py` lines 120-132), with `none`
for an absent key.  A `message` key bound to a non-string JSON value is
outside the modelled subset (it would hit the generic 500 handler). -/
structure ChatReq where
  message : Option String
  user_id : Option String
  session_id : Option String
  channel : Option String
  language : Option String
deriving DecidableEq

/-- Successful `/chat` response body (`app.py` lines 158-163). -/
structure ChatResp where
  response : String
  log_id : Int
  intent : String
  resolved : Bool
deriving DecidableEq

/-- The two client-error envelopes of the API. -/
inductive ApiErr where
  | validation : ApiErr
  | notFound : ApiErr
deriving DecidableEq

/-- HTTP status of an error envelope (400 resp. 404). -/
def ApiErr.code : ApiErr → Nat
  | .validation => 400
  | .notFound => 404

/-- Largest id in the table, 0 for the empty table. -/
def maxId (db : List Record) : Int :=
  db.foldr (fun r m => max r.id m) 0

/-- Modelled from the environment: the SQLite `INTEGER PRIMARY KEY`
auto-increment, which assigns one more than the largest id in use (1 for an
empty table). -/
def nextId (db : List Record) : Int := maxId db + 1

/-- The row the `/chat` handler builds (`app.py` lines 141-151): the id comes
from the store's auto-increment on commit; `ts` is the `timestamp` default,
`newSession` the generated `uuid4` token, `rt` the measured wall-clock
response time. -/
def chatRecord (req : ChatReq) (msg : String) (nowT nowD newSession ts : String)
    (rt : Rat) (db : List Record) : Record :=
  let t := generate_bot_reply nowT nowD msg
  { id := nextId db
    user_id := req.user_id.getD "anonymous"
    session_id := req.session_id.getD newSession
    timestamp := ts
    query_text := msg
    bot_response := t.1
    intent := some t.2.1
    resolved := if t.2.2 then 1 else 0
    rating := none
    response_time := some rt
    channel := req.channel.getD "web"
    language := req.language.getD "ru" }

/-- The `/chat` handler (`app.py` lines 115-167): reject a missing or blank
`message` with a 400 before any write; otherwise call the responder once,
append exactly one row and return its id with the responder triple. -/
def chat (req : ChatReq) (nowT nowD newSession ts : String) (rt : Rat)
    (db : List Record) : Except ApiErr ChatResp × List Record :=
  match req.message with
  | none => (.error .validation, db)
  | some msg =>
    if pyStrip msg = "" then (.error .validation, db)
    else
      let t := generate_bot_reply nowT nowD msg
      let rec₀ := chatRecord req msg nowT nowD newSession ts rt db
      (.ok { response := t.1, log_id := rec₀.id, intent := t.2.1,
             resolved := t.2.2 },
       db ++ [rec₀])

/-- JSON body of a `POST /rate` request with both keys present (`app.py`
lines 174-178); `rating = none` models a JSON value that is not an `int`
(so that `isinstance(rating, int)` fails). -/
structure RateReq where
  log_id : Int
  rating : Option Int
deriving DecidableEq

/-- The `/rate` handler (`app.py` lines 170-197): range-validate the rating
(400), then look the record up by primary key (404), then overwrite only its
`rating` field and return the applied value. -/
def rate_response (req : RateReq) (db : List Record) :
    Except ApiErr (Int × Int) × List Record :=
  match req.rating with
  | none => (.error .validation, db)
  | some n =>
    if n < 1 || n > 5 then (.error .validation, db)
    else if db.any (fun r => r.id == req.log_id) then
      (.ok (req.log_id, n),
       db.map (fun r => if r.id == req.log_id then { r with rating := some n } else r))
    else (.error .notFound, db)

/-- Round half to even on exact rationals, the tie rule of Python `round`
(binary floating-point representation artifacts are outside the model). -/
def roundHalfEven (q : Rat) : Int :=
  let n := q.floor
  if q - (n : Rat) < 1 / 2 then n
  else if (1 : Rat) / 2 < q - (n : Rat) then n + 1
  else if n % 2 = 0 then n else n + 1

/-- Python `round(q, nd)`. -/
def pyRound (q : Rat) (nd : Nat) : Rat :=
  (roundHalfEven (q * (10 : Rat) ^ nd) : Rat) / (10 : Rat) ^ nd

/-- Count of rows with `resolved = 1`, the SQL translation of the SQLAlchemy
filter `resolved == True` (`app.py` line 215). -/
def resolvedCount (db : List Record) : Nat :=
  (db.filter (fun r => r.resolved == 1)).length

/-- The `/stats` response body (`app.py` lines 226-234). -/
structure Stats where
  total_interactions : Nat
  rated_interactions : Nat
  average_rating : Rat
  resolved_count : Nat
  resolution_rate : Rat
  average_response_time : Rat
  intent_distribution : List (Option String × Nat)
deriving DecidableEq

/-- The `/stats` aggregator (`app.py` lines 200-234).  SQL `AVG` over an
empty (or all-NULL) selection yields NULL, which `or 0` turns into 0; the
`GROUP BY intent` distribution maps each distinct intent to its row count. -/
def get_stats (db : List Record) : Stats :=
  let total := db.length
  let ratings := db.filterMap Record.rating
  let rated := ratings.length
  let avg_rating : Rat :=
    if rated = 0 then 0 else ((ratings.map (fun n => (n : Rat))).sum) / (rated : Rat)
  let rts := db.filterMap Record.response_time
  let avg_rt : Rat := if rts.length = 0 then 0 else rts.sum / (rts.length : Rat)
  { total_interactions := total
    rated_interactions := rated
    average_rating := pyRound avg_rating 2
    resolved_count := resolvedCount db
    resolution_rate :=
      pyRound (if 0 < total then (resolvedCount db : Rat) / (total : Rat) * 100 else 0) 2
    average_response_time := pyRound avg_rt 3
    intent_distribution :=
      (db.map Record.intent).dedup.map
        (fun i => (i, (db.map Record.intent).count i)) }

/-- A present rating lies in [1,5]. -/
def ratingOk : Option Int → Bool
  | none => true
  | some n => decide (1 ≤ n) && decide (n ≤ 5)

/-- Table-wide rating invariant: every present `rating` lies in [1,5]. -/
def ratingInv (db : List Record) : Bool :=
  db.all (fun r => ratingOk r.rating)

/-- A CSV row whose coercion, if it succeeds at all, yields an in-range or
absent rating. -/
def rowRatingOk (row : Row) : Bool :=
  match coerceRow row with
  | .ok rec => ratingOk rec.rating
  | .error _ => true

deriving instance DecidableEq for Except

/-- A well-formed CSV row with id 1 whose optional cells are all absent. -/
def sampleRow1 : Row :=
  { id := 1, user_id := some "u", session_id := none, timestamp := none,
    query_text := some "q", bot_response := some "b", intent := some "greeting",
    resolved := .absent, rating := .absent, response_time := .absent,
    channel := none, language := none }

/-- `sampleRow1` with a rating cell that `int()` cannot parse. -/
def badRatingRow : Row := { sampleRow1 with rating := .text "abc" }

/-- `sampleRow1` with a resolved cell that `int()` cannot parse. -/
def badResolvedRow : Row := { sampleRow1 with resolved := .text "xyz" }

/-- `sampleRow1` with a response_time cell that `float()` cannot parse. -/
def badResponseTimeRow : Row := { sampleRow1 with response_time := .text "fast" }

/-- `sampleRow1` with the numeric rating 7, outside [1,5]. -/
def outOfRangeRow : Row := { sampleRow1 with rating := .num 7 }

/-- A stored record with id 4 (the store side of the spec's `{2,3,4}` versus
`{1,2,3}` example, reduced to the one row that matters). -/
def sampleRec4 : Record :=
  { id := 4, user_id := "u4", session_id := "s4", timestamp := "t4",
    query_text := "q4", bot_response := "b4", intent := some "thanks",
    resolved := 1, rating := some 5, response_time := none,
    channel := "web", language := "ru" }

/-- The record `sampleRow1` coerces to. -/
def sampleRec1 : Record :=
  { id := 1, user_id := "u", session_id := "", timestamp := "",
    query_text := "q", bot_response := "b", intent := some "greeting",
    resolved := 1, rating := none, response_time := none,
    channel := "web", language := "ru" }

theorem pyRound_zero (nd : Nat) : pyRound 0 nd = 0 := by
  norm_num [pyRound, roundHalfEven, Rat.floor]

/-- C2 (amended): an empty CSV file (or a header-only file) clears the whole
destination table and reports success; a missing CSV file aborts the run with
an unsuccessful result and leaves the store unchanged, rather than being
treated as zero rows. -/
theorem C2_empty_csv_clears_missing_aborts (db : List Record) :
    csv_to_db (.rows []) db = (true, []) ∧
    csv_to_db .missing db = (false, db) :=
  ⟨rfl, rfl⟩

/-- C2 counterexample: reconciling against a missing CSV file does not leave
the store empty; the non-empty store `[sampleRec4]` is returned unchanged with
the failure flag, so a missing file is not treated as a zero-row snapshot. -/
theorem C2_missing_file_counterexample :
    csv_to_db .missing [sampleRec4] = (false, [sampleRec4]) ∧
    ([sampleRec4] : List Record) ≠ [] := by
  exact ⟨rfl, by decide⟩

/-- C3: whenever a reconciliation run reports failure (missing file, file
parse error, or a `ValueError` in a row coercion) the store after the run is
exactly the store before it; a file-level parse error and a mid-loop coercion
error both yield the unsuccessful flag with no partial commit. -/
theorem C3_failed_run_no_partial_commit (input : CsvInput) (db : List Record) :
    ((csv_to_db input db).1 = false → (csv_to_db input db).2 = db) ∧
    (csv_to_db .malformed db = (false, db)) ∧
    (∀ rs e, input = .rows rs → applyRows rs (keptRows rs db) = .error e →
      csv_to_db input db = (false, db)) := by
  refine ⟨?_, rfl, ?_⟩
  · cases input with
    | missing => intro _; rfl
    | malformed => intro _; rfl
    | rows rs =>
      cases rs with
      | nil => intro h; simp [csv_to_db] at h
      | cons r rs =>
        intro h
        simp only [csv_to_db, List.isEmpty_cons, Bool.false_eq_true, if_false] at h ⊢
        cases happ : applyRows (r :: rs) (keptRows (r :: rs) db) with
        | ok d => rw [happ] at h; simp at h
        | error e => rfl
  · intro rs e hin happ
    subst hin
    cases rs with
    | nil => simp [applyRows] at happ
    | cons r rs =>
      simp only [csv_to_db, List.isEmpty_cons]
      rw [happ]
      simp

theorem C3_failed_run_no_partial_commit_witness :
    csv_to_db (.rows [badRatingRow]) [sampleRec4] = (false, [sampleRec4]) :=
  (C3_failed_run_no_partial_commit (.rows [badRatingRow]) [sampleRec4]).2.2
    [badRatingRow] "ValueError" rfl (by decide)

/-- C8: the stats aggregator returns all-zero counts, means and rates on the
empty table (with no division performed), and in general the resolution
percentage is resolved count over total times 100 when the total is positive
and 0 when the table is empty (values rounded for display at 2 decimals as in
the handler). -/
theorem C8_stats_empty_and_rate_formula (db : List Record) :
    get_stats [] = ⟨0, 0, 0, 0, 0, 0, []⟩ ∧
    (get_stats db).total_interactions = db.length ∧
    (get_stats db).rated_interactions = (db.filterMap Record.rating).length ∧
    (get_stats db).resolved_count = resolvedCount db ∧
    (get_stats db).resolution_rate =
      (if 0 < db.length then
        pyRound ((resolvedCount db : Rat) / (db.length : Rat) * 100) 2
      else 0) := by
  refine ⟨by norm_num [get_stats, pyRound, roundHalfEven, resolvedCount, Rat.floor],
    rfl, rfl, rfl, ?_⟩
  by_cases h : 0 < db.length
  · simp [get_stats, h]
  · simp [get_stats, h, pyRound_zero]

theorem mem_le_maxId (db : List Record) (r : Record) (h : r ∈ db) :
    r.id ≤ maxId db := by
  induction db with
  | nil => cases h
  | cons a l ih =>
    rcases List.mem_cons.mp h with rfl | h'
    · exact le_max_left _ _
    · exact le_trans (ih h') (le_max_right _ _)

theorem nextId_not_mem (db : List Record) : nextId db ∉ db.map Record.id := by
  intro h
  rcases List.mem_map.mp h with ⟨r, hr, hid⟩
  have hle := mem_le_maxId db r hr
  rw [hid] at hle
  simp only [nextId] at hle
  omega

/-- C6: a rating request with a non-integer or out-of-range rating fails with
the 400 validation error and leaves the store unchanged; with a valid rating
but an unknown id it fails with the 404 not-found error and leaves the store
unchanged; otherwise it returns the applied value and overwrites exactly the
`rating` field of exactly the addressed record. -/
theorem C6_rating_update (req : RateReq) (db : List Record) :
    ((req.rating = none ∨ ∃ n, req.rating = some n ∧ (n < 1 ∨ 5 < n)) →
      rate_response req db = (.error .validation, db)) ∧
    (∀ n, req.rating = some n → 1 ≤ n → n ≤ 5 →
      (∀ r ∈ db, r.id ≠ req.log_id) →
      rate_response req db = (.error .notFound, db)) ∧
    (∀ n, req.rating = some n → 1 ≤ n → n ≤ 5 →
      (∃ r ∈ db, r.id = req.log_id) →
      rate_response req db =
        (.ok (req.log_id, n),
         db.map (fun r =>
           if r.id = req.log_id then { r with rating := some n } else r))) := by
  refine ⟨?_, ?_, ?_⟩
  · rintro (hnone | ⟨n, hn, hout⟩)
    · simp [rate_response, hnone]
    · have h1 : (decide (n < 1) || decide (n > 5)) = true := by
        rcases hout with h | h <;> simp [h]
      simp [rate_response, hn, h1]
  · intro n hn h1 h5 habs
    have hc : (decide (n < 1) || decide (n > 5)) = false := by
      simp; omega
    have hany : db.any (fun r => r.id == req.log_id) = false := by
      simp only [List.any_eq_false, beq_iff_eq]
      exact habs
    simp [rate_response, hn, hc, hany]
  · intro n hn h1 h5 hmem
    have hc : (decide (n < 1) || decide (n > 5)) = false := by
      simp; omega
    have hany : db.any (fun r => r.id == req.log_id) = true := by
      rcases hmem with ⟨r, hr, hid⟩
      simp only [List.any_eq_true, beq_iff_eq]
      exact ⟨r, hr, hid⟩
    simp [rate_response, hn, hc, hany]

theorem C6_rating_update_witness :
    rate_response ⟨4, some 9⟩ [sampleRec4] = (.error .validation, [sampleRec4]) ∧
    rate_response ⟨9, some 3⟩ [sampleRec4] = (.error .notFound, [sampleRec4]) ∧
    rate_response ⟨4, some 3⟩ [sampleRec4] =
      (.ok (4, 3), [{ sampleRec4 with rating := some 3 }]) :=
  ⟨(C6_rating_update ⟨4, some 9⟩ [sampleRec4]).1 (.inr ⟨9, rfl, by omega⟩),
   (C6_rating_update ⟨9, some 3⟩ [sampleRec4]).2.1 3 rfl (by omega) (by omega)
     (by decide),
   ((C6_rating_update ⟨4, some 3⟩ [sampleRec4]).2.2 3 rfl (by omega) (by omega)
     ⟨sampleRec4, by simp, by decide⟩).trans (by decide)⟩

/-- C10: in the rating update the range validation precedes the existence
check: with an invalid rating and an id naming no record the outcome is the
400 validation error, never the 404 not-found error, and the store is
unchanged. -/
theorem C10_validation_precedes_existence (req : RateReq) (db : List Record)
    (hbad : req.rating = none ∨ ∃ n, req.rating = some n ∧ (n < 1 ∨ 5 < n))
    (habs : ∀ r ∈ db, r.id ≠ req.log_id) :
    rate_response req db = (.error .validation, db) ∧
    ApiErr.validation.code = 400 ∧ ApiErr.validation ≠ ApiErr.notFound := by
  refine ⟨?_, rfl, by decide⟩
  rcases hbad with hnone | ⟨n, hn, hout⟩
  · simp [rate_response, hnone]
  · have h1 : (decide (n < 1) || decide (n > 5)) = true := by
      rcases hout with h | h <;> simp [h]
    simp [rate_response, hn, h1]

theorem C10_validation_precedes_existence_witness :
    rate_response ⟨77, some 6⟩ [sampleRec4] = (.error .validation, [sampleRec4]) :=
  (C10_validation_precedes_existence ⟨77, some 6⟩ [sampleRec4]
    (.inr ⟨6, rfl, by omega⟩) (by decide)).1

/-- C5: a chat request whose message is present and non-blank after trimming
invokes the responder once, appends exactly one new record built from the
responder triple, and returns that record's freshly generated id together
with the reply, intent and resolved flag (the id names no pre-existing row,
so the record is subsequently retrievable by it); a request whose message is
missing or blank fails with the 400 validation error and persists nothing. -/
theorem C5_chat_recording (req : ChatReq) (nowT nowD ns ts : String) (rt : Rat)
    (db : List Record) :
    (∀ msg, req.message = some msg → pyStrip msg ≠ "" →
      chat req nowT nowD ns ts rt db =
        (.ok { response := (generate_bot_reply nowT nowD msg).1,
               log_id := (chatRecord req msg nowT nowD ns ts rt db).id,
               intent := (generate_bot_reply nowT nowD msg).2.1,
               resolved := (generate_bot_reply nowT nowD msg).2.2 },
         db ++ [chatRecord req msg nowT nowD ns ts rt db]) ∧
      (chatRecord req msg nowT nowD ns ts rt db).id = nextId db ∧
      nextId db ∉ db.map Record.id ∧
      (chatRecord req msg nowT nowD ns ts rt db).bot_response =
        (generate_bot_reply nowT nowD msg).1 ∧
      (chatRecord req msg nowT nowD ns ts rt db).intent =
        some (generate_bot_reply nowT nowD msg).2.1 ∧
      (chatRecord req msg nowT nowD ns ts rt db).rating = none) ∧
    ((req.message = none ∨ ∃ msg, req.message = some msg ∧ pyStrip msg = "") →
      chat req nowT nowD ns ts rt db = (.error .validation, db)) := by
  constructor
  · intro msg hmsg hblank
    refine ⟨?_, rfl, nextId_not_mem db, rfl, rfl, rfl⟩
    simp [chat, hmsg, hblank]
  · rintro (hnone | ⟨msg, hmsg, hblank⟩)
    · simp [chat, hnone]
    · simp [chat, hmsg, hblank]

theorem C5_chat_recording_witness :
    chat ⟨some "hi", none, none, none, none⟩ "12:00" "01.01.2026" "S" "ts" 1 [sampleRec4] =
      (.ok ⟨"Здравствуйте! Чем могу помочь?", 5, "greeting", true⟩,
       [sampleRec4,
        { id := 5, user_id := "anonymous", session_id := "S", timestamp := "ts",
          query_text := "hi", bot_response := "Здравствуйте! Чем могу помочь?",
          intent := some "greeting", resolved := 1, rating := none,
          response_time := some 1, channel := "web", language := "ru" }]) ∧
    chat ⟨some " ", none, none, none, none⟩ "12:00" "01.01.2026" "S" "ts" 1 [sampleRec4] =
      (.error .validation, [sampleRec4]) :=
  ⟨(((C5_chat_recording ⟨some "hi", none, none, none, none⟩ "12:00" "01.01.2026"
      "S" "ts" 1 [sampleRec4]).1 "hi" rfl (by decide)).1).trans (by decide),
   (C5_chat_recording ⟨some " ", none, none, none, none⟩ "12:00" "01.01.2026"
      "S" "ts" 1 [sampleRec4]).2 (.inr ⟨" ", rfl, by decide⟩)⟩

theorem find?_cons_eq_ite {α : Type} (p : α → Bool) (a : α) (l : List α) :
    List.find? p (a :: l) = if p a = true then some a else List.find? p l := by
  cases h : p a
  · simp [List.find?_cons_of_neg, h]
  · simp [List.find?_cons_of_pos, h]

set_option maxHeartbeats 2000000 in
/-- C4: the intent responder lowercases the input and returns the reply,
intent label and resolved flag of the first category, in the fixed priority
order greeting, time_query, date_query, weather_query, help_request, thanks,
goodbye, bot_info, bot_info (age), whose keyword set has a substring match in
the text; an input matching several categories gets the earliest one's
result, and an input matching none gets the unknown fallback with
`resolved = false`. -/
theorem C4_responder_first_match (nowT nowD user_text : String) :
    generate_bot_reply nowT nowD user_text = firstMatchSpec nowT nowD user_text ∧
    unknownTriple.2.1 = "unknown" ∧ unknownTriple.2.2 = false := by
  refine ⟨?_, rfl, rfl⟩
  unfold generate_bot_reply firstMatchSpec categories
  simp only [find?_cons_eq_ite, List.find?_nil]
  split_ifs <;> rfl

/-- C7 counterexample: a CSV row whose `rating` cell is the unparseable text
"abc" does not get upserted with an absent rating; the coercion raises, the
whole run fails, and nothing reaches the store. -/
theorem C7_unparseable_rating_counterexample :
    strToInt "abc" = none ∧
    exceptIsOk (coerceRow badRatingRow) = false ∧
    csv_to_db (.rows [badRatingRow]) [] = (false, []) := by decide

/-- C7 (amended): for every CSV row the reconciler coerces successfully,
`resolved` defaults to 1 (true) when the cell is absent or empty, `rating`
and `response_time` become absent (not zero) when the cell is absent or
empty, and `channel`/`language` fall back to "web"/"ru" when the column is
missing; an unparseable non-empty value in these numeric fields, however, is
not defaulted: it aborts the whole run with a failure. -/
theorem applyRows_error_of_mem {r : Row}
    (hbad : exceptIsOk (coerceRow r) = false) :
    ∀ (rows : List Row) (acc : List Record), r ∈ rows →
      ∃ e, applyRows rows acc = .error e := by
  intro rows
  induction rows with
  | nil => intro acc hmem; cases hmem
  | cons r0 rs ih =>
    intro acc hmem
    unfold applyRows
    cases hc : coerceRow r0 with
    | error e => exact ⟨e, rfl⟩
    | ok rec =>
      rcases List.mem_cons.mp hmem with rfl | hmem'
      · rw [hc] at hbad; exact absurd hbad (by simp [exceptIsOk])
      · exact ih (upsert rec acc) hmem'

theorem C7_field_coercion_amended (r : Row) :
    (∀ rec, coerceRow r = .ok rec →
      (r.resolved = .absent → rec.resolved = 1) ∧
      (r.rating = .absent → rec.rating = none) ∧
      (r.response_time = .absent → rec.response_time = none) ∧
      (r.channel = none → rec.channel = "web") ∧
      (r.language = none → rec.language = "ru")) ∧
    (∀ s, r.resolved = .text s → strToInt s = none →
      exceptIsOk (coerceRow r) = false) ∧
    (∀ s, r.rating = .text s → strToInt s = none →
      exceptIsOk (coerceRow r) = false) ∧
    (∀ s, r.response_time = .text s → strToRat s = none →
      exceptIsOk (coerceRow r) = false) ∧
    (∀ rs db, r ∈ rs → exceptIsOk (coerceRow r) = false →
      csv_to_db (.rows rs) db = (false, db)) := by
  refine ⟨?_, ?_, ?_, ?_, ?_⟩
  · intro rec h
    unfold coerceRow at h
    cases h1 : pyIntD1 r.resolved with
    | error e => rw [h1] at h; exact absurd h (by simp)
    | ok res =>
    rw [h1] at h
    cases h2 : pyIntOpt r.rating with
    | error e => rw [h2] at h; exact absurd h (by simp)
    | ok rat =>
    rw [h2] at h
    cases h3 : pyFloatOpt r.response_time with
    | error e => rw [h3] at h; exact absurd h (by simp)
    | ok rt =>
    rw [h3] at h
    injection h with h
    subst h
    refine ⟨?_, ?_, ?_, fun hc => by simp [hc], fun hl => by simp [hl]⟩
    · intro habs; rw [habs] at h1; injection h1 with h1; exact h1.symm
    · intro habs; rw [habs] at h2; injection h2 with h2; exact h2.symm
    · intro habs; rw [habs] at h3; injection h3 with h3; exact h3.symm
  · intro s hs hparse
    cases h2 : pyIntOpt r.rating <;>
      cases h3 : pyFloatOpt r.response_time <;>
        simp [coerceRow, h2, h3, hs, pyIntD1, hparse, exceptIsOk]
  · intro s hs hparse
    cases h1 : pyIntD1 r.resolved <;>
      cases h3 : pyFloatOpt r.response_time <;>
        simp [coerceRow, h1, h3, hs, pyIntOpt, hparse, exceptIsOk]
  · intro s hs hparse
    cases h1 : pyIntD1 r.resolved <;>
      cases h2 : pyIntOpt r.rating <;>
        simp [coerceRow, h1, h2, hs, pyFloatOpt, hparse, exceptIsOk]
  · intro rs db hmem hbad
    have hises : rs.isEmpty = false := by
      cases rs with
      | nil => cases hmem
      | cons a l => rfl
    obtain ⟨e, he⟩ := applyRows_error_of_mem hbad rs (keptRows rs db) hmem
    simp only [csv_to_db, hises, Bool.false_eq_true, if_false]
    rw [he]

theorem C7_field_coercion_amended_witness :
    sampleRec1.resolved = 1 ∧ sampleRec1.rating = none ∧
    sampleRec1.response_time = none ∧ sampleRec1.channel = "web" ∧
    exceptIsOk (coerceRow badResolvedRow) = false ∧
    exceptIsOk (coerceRow badRatingRow) = false ∧
    exceptIsOk (coerceRow badResponseTimeRow) = false ∧
    csv_to_db (.rows [badRatingRow]) [sampleRec4] = (false, [sampleRec4]) :=
  ⟨((C7_field_coercion_amended sampleRow1).1 sampleRec1 (by decide)).1 rfl,
   ((C7_field_coercion_amended sampleRow1).1 sampleRec1 (by decide)).2.1 rfl,
   ((C7_field_coercion_amended sampleRow1).1 sampleRec1 (by decide)).2.2.1 rfl,
   ((C7_field_coercion_amended sampleRow1).1 sampleRec1 (by decide)).2.2.2.1 rfl,
   (C7_field_coercion_amended badResolvedRow).2.1 "xyz" rfl (by decide),
   (C7_field_coercion_amended badRatingRow).2.2.1 "abc" rfl (by decide),
   (C7_field_coercion_amended badResponseTimeRow).2.2.2.1 "fast" rfl (by decide),
   (C7_field_coercion_amended badRatingRow).2.2.2.2 [badRatingRow] [sampleRec4]
     (List.mem_singleton.mpr rfl) (by decide)⟩

theorem mem_upsert {a rec : Record} {db : List Record}
    (h : a ∈ upsert rec db) : a = rec ∨ a ∈ db := by
  unfold upsert at h
  split at h
  · rcases List.mem_map.mp h with ⟨r, hr, heq⟩
    by_cases hid : (r.id == rec.id) = true
    · rw [if_pos hid] at heq; exact .inl heq.symm
    · rw [if_neg hid] at heq; exact .inr (heq ▸ hr)
  · rcases List.mem_append.mp h with h' | h'
    · exact .inr h'
    · exact .inl (List.mem_singleton.mp h')

theorem ratingInv_upsert {rec : Record} {db : List Record}
    (hrec : ratingOk rec.rating = true) (hdb : ratingInv db = true) :
    ratingInv (upsert rec db) = true := by
  rw [ratingInv, List.all_eq_true]
  intro a ha
  rcases mem_upsert ha with rfl | ha'
  · exact hrec
  · exact (List.all_eq_true.mp hdb) a ha'

theorem applyRows_ratingInv (rows : List Row) (acc db2 : List Record)
    (hacc : ratingInv acc = true) (hrows : rows.all rowRatingOk = true)
    (happ : applyRows rows acc = .ok db2) : ratingInv db2 = true := by
  induction rows generalizing acc with
  | nil => injection happ with h; exact h ▸ hacc
  | cons r rs ih =>
    rw [List.all_cons, Bool.and_eq_true] at hrows
    unfold applyRows at happ
    cases hc : coerceRow r with
    | error e => rw [hc] at happ; exact absurd happ (by simp)
    | ok rec =>
      rw [hc] at happ
      have hrec : ratingOk rec.rating = true := by
        have := hrows.1
        rw [rowRatingOk, hc] at this
        exact this
      exact ih (upsert rec acc) (ratingInv_upsert hrec hacc) hrows.2 happ

theorem ratingInv_filter (db : List Record) (p : Record → Bool)
    (h : ratingInv db = true) : ratingInv (db.filter p) = true := by
  rw [ratingInv, List.all_eq_true]
  intro a ha
  exact (List.all_eq_true.mp h) a (List.mem_filter.mp ha).1

/-- C9 counterexample: the reconciler performs no range check on ratings; the
CSV row with numeric rating 7 is upserted as-is, the run reports success, and
the resulting store violates the [1,5] rating invariant. -/
theorem C9_reconciler_rating_counterexample :
    (csv_to_db (.rows [outOfRangeRow]) []).1 = true ∧
    ratingInv (csv_to_db (.rows [outOfRangeRow]) []).2 = false := by decide

/-- C9 (amended): the [1,5] invariant on present ratings is preserved
unconditionally by interaction recording (which stores no rating) and by the
rating update (which range-checks before writing); the reconciler upsert
preserves it only under the extra assumption that every successfully coerced
CSV row carries an in-range or absent rating, because it writes CSV ratings
to the store unchecked. -/
theorem C9_rating_invariant_amended (input : CsvInput) (db : List Record)
    (creq : ChatReq) (rreq : RateReq) (nowT nowD ns ts : String) (rt : Rat)
    (hinv : ratingInv db = true) :
    ratingInv (chat creq nowT nowD ns ts rt db).2 = true ∧
    ratingInv (rate_response rreq db).2 = true ∧
    ((rowsOf input).all rowRatingOk = true →
      ratingInv (csv_to_db input db).2 = true) := by
  refine ⟨?_, ?_, ?_⟩
  · cases hmsg : creq.message with
    | none => simpa [chat, hmsg] using hinv
    | some msg =>
      by_cases hb : pyStrip msg = ""
      · simpa [chat, hmsg, hb] using hinv
      · simp only [chat, hmsg]
        rw [if_neg hb]
        simp only [ratingInv, List.all_append]
        rw [Bool.and_eq_true]
        exact ⟨hinv, by simp [chatRecord, ratingOk]⟩
  · cases hr : rreq.rating with
    | none => simpa [rate_response, hr] using hinv
    | some n =>
      by_cases hc : (decide (n < 1) || decide (n > 5)) = true
      · simpa [rate_response, hr, hc] using hinv
      · have hn1 : 1 ≤ n := by simp at hc; omega
        have hn5 : n ≤ 5 := by simp at hc; omega
        by_cases hany : db.any (fun r => r.id == rreq.log_id) = true
        · simp only [rate_response, hr, hc, hany, if_true, if_false,
            Bool.false_eq_true]
          rw [ratingInv, List.all_eq_true]
          intro a ha
          rcases List.mem_map.mp ha with ⟨r, hrmem, heq⟩
          by_cases hid : (r.id == rreq.log_id) = true
          · rw [if_pos hid] at heq
            rw [← heq]
            simp [ratingOk]
            omega
          · rw [if_neg hid] at heq
            exact heq ▸ (List.all_eq_true.mp hinv) r hrmem
        · simp only [Bool.not_eq_true] at hany
          simpa [rate_response, hr, hc, hany] using hinv
  · intro hrows
    cases input with
    | missing => simpa [csv_to_db] using hinv
    | malformed => simpa [csv_to_db] using hinv
    | rows rs =>
      by_cases he : rs.isEmpty
      · simp [csv_to_db, he, ratingInv]
      · simp only [csv_to_db, he, Bool.false_eq_true, if_false]
        cases happ : applyRows rs (keptRows rs db) with
        | error e => simpa using hinv
        | ok db2 =>
          simp only
          exact applyRows_ratingInv rs (keptRows rs db) db2
            (ratingInv_filter db _ hinv) hrows happ

theorem C9_rating_invariant_amended_witness :
    ratingInv (csv_to_db (.rows [sampleRow1]) [sampleRec4]).2 = true ∧
    ratingInv (chat ⟨some "hi", none, none, none, none⟩ "T" "D" "S" "ts" 1
      [sampleRec4]).2 = true ∧
    ratingInv (rate_response ⟨4, some 3⟩ [sampleRec4]).2 = true :=
  ⟨(C9_rating_invariant_amended (.rows [sampleRow1]) [sampleRec4]
      ⟨some "hi", none, none, none, none⟩ ⟨4, some 3⟩ "T" "D" "S" "ts" 1
      (by decide)).2.2 (by decide),
   (C9_rating_invariant_amended (.rows [sampleRow1]) [sampleRec4]
      ⟨some "hi", none, none, none, none⟩ ⟨4, some 3⟩ "T" "D" "S" "ts" 1
      (by decide)).1,
   (C9_rating_invariant_amended (.rows [sampleRow1]) [sampleRec4]
      ⟨some "hi", none, none, none, none⟩ ⟨4, some 3⟩ "T" "D" "S" "ts" 1
      (by decide)).2.1⟩

theorem coerceRow_id (row : Row) (rec : Record) (h : coerceRow row = .ok rec) :
    rec.id = row.id := by
  unfold coerceRow at h
  cases h1 : pyIntD1 row.resolved with
  | error e => rw [h1] at h; exact absurd h (by simp)
  | ok res =>
  rw [h1] at h
  cases h2 : pyIntOpt row.rating with
  | error e => rw [h2] at h; exact absurd h (by simp)
  | ok rat =>
  rw [h2] at h
  cases h3 : pyFloatOpt row.response_time with
  | error e => rw [h3] at h; exact absurd h (by simp)
  | ok rt =>
  rw [h3] at h
  injection h with h
  rw [← h]

theorem mem_upsert_of_ne {rec x : Record} {db : List Record}
    (h : rec ∈ db) (hne : rec.id ≠ x.id) : rec ∈ upsert x db := by
  unfold upsert
  split
  · have : (fun r => if r.id == x.id then x else r) rec = rec := by
      simp only [beq_iff_eq, if_neg hne]
    exact this ▸ List.mem_map_of_mem _ h
  · exact List.mem_append_left _ h

theorem self_mem_upsert (x : Record) (db : List Record) : x ∈ upsert x db := by
  unfold upsert
  split
  · next hany =>
    rcases List.any_eq_true.mp hany with ⟨r, hr, hid⟩
    refine List.mem_map.mpr ⟨r, hr, ?_⟩
    simp only [hid, if_true]
  · exact List.mem_append_right _ (List.mem_singleton.mpr rfl)

theorem upsert_map_id_nodup {x : Record} {db : List Record}
    (h : (db.map Record.id).Nodup) :
    ((upsert x db).map Record.id).Nodup := by
  unfold upsert
  split
  · next hany =>
    have heq : (db.map (fun r => if r.id == x.id then x else r)).map Record.id =
        db.map Record.id := by
      rw [List.map_map]
      refine List.map_congr_left ?_
      intro r _
      by_cases hid : (r.id == x.id) = true
      · simp only [Function.comp_apply, hid, if_true]
        exact (beq_iff_eq.mp hid).symm
      · simp only [Function.comp_apply, hid, if_false]
        rfl
    rw [heq]; exact h
  · next hany =>
    rw [List.map_append, List.map_singleton]
    refine List.Nodup.append h (List.nodup_singleton _) ?_
    intro a ha hb
    rw [List.mem_singleton] at hb
    subst hb
    rcases List.mem_map.mp ha with ⟨r, hr, hid⟩
    rw [Bool.not_eq_true, List.any_eq_false] at hany
    exact (hany r hr) (by simp [hid])

theorem applyRows_mem_src {rows : List Row} {acc db2 : List Record}
    (happ : applyRows rows acc = .ok db2) {rec : Record} (hmem : rec ∈ db2) :
    rec ∈ acc ∨ ∃ row ∈ rows, coerceRow row = .ok rec := by
  induction rows generalizing acc with
  | nil => injection happ with h; exact .inl (h ▸ hmem)
  | cons r rs ih =>
    unfold applyRows at happ
    cases hc : coerceRow r with
    | error e => rw [hc] at happ; exact absurd happ (by simp)
    | ok rec0 =>
      rw [hc] at happ
      rcases ih happ with hup | ⟨row, hrow, hok⟩
      · rcases mem_upsert hup with rfl | hacc
        · exact .inr ⟨r, List.mem_cons_self r rs, hc⟩
        · exact .inl hacc
      · exact .inr ⟨row, List.mem_cons_of_mem r hrow, hok⟩

theorem applyRows_persists {rows : List Row} {acc db2 : List Record}
    {rec : Record} (hmem : rec ∈ acc)
    (hne : ∀ row ∈ rows, row.id ≠ rec.id)
    (happ : applyRows rows acc = .ok db2) : rec ∈ db2 := by
  induction rows generalizing acc with
  | nil => injection happ with h; exact h ▸ hmem
  | cons r rs ih =>
    unfold applyRows at happ
    cases hc : coerceRow r with
    | error e => rw [hc] at happ; exact absurd happ (by simp)
    | ok rec0 =>
      rw [hc] at happ
      have hid : rec0.id = r.id := coerceRow_id r rec0 hc
      have : rec ∈ upsert rec0 acc := by
        refine mem_upsert_of_ne hmem ?_
        rw [hid]
        exact fun h => (hne r (List.mem_cons_self r rs)) h.symm
      exact ih this (fun row hrow => hne row (List.mem_cons_of_mem r hrow)) happ

theorem applyRows_lands {rows : List Row} {acc db2 : List Record}
    (hnodup : (rows.map Row.id).Nodup)
    (happ : applyRows rows acc = .ok db2) :
    ∀ row ∈ rows, ∃ rec, coerceRow row = .ok rec ∧ rec ∈ db2 := by
  induction rows generalizing acc with
  | nil => intro row hrow; cases hrow
  | cons r rs ih =>
    intro row hrow
    unfold applyRows at happ
    cases hc : coerceRow r with
    | error e => rw [hc] at happ; exact absurd happ (by simp)
    | ok rec0 =>
      rw [hc] at happ
      rw [List.map_cons, List.nodup_cons] at hnodup
      rcases List.mem_cons.mp hrow with rfl | hrow'
      · refine ⟨rec0, hc, ?_⟩
        refine applyRows_persists (self_mem_upsert rec0 acc) ?_ happ
        intro row' hrow' heq
        rw [coerceRow_id row rec0 hc] at heq
        exact hnodup.1 (heq ▸ List.mem_map_of_mem Row.id hrow')
      · exact ih hnodup.2 happ row hrow'

theorem applyRows_nodup {rows : List Row} {acc db2 : List Record}
    (hacc : (acc.map Record.id).Nodup)
    (happ : applyRows rows acc = .ok db2) :
    (db2.map Record.id).Nodup := by
  induction rows generalizing acc with
  | nil => injection happ with h; exact h ▸ hacc
  | cons r rs ih =>
    unfold applyRows at happ
    cases hc : coerceRow r with
    | error e => rw [hc] at happ; exact absurd happ (by simp)
    | ok rec0 => rw [hc] at happ; exact ih (upsert_map_id_nodup hacc) happ

/-- C1 counterexample: for the non-empty CSV `[badRatingRow]` (id set `{1}`,
with an unparseable rating cell) against the store `[sampleRec4]` (id set
`{4}`), the run fails and the store keeps id set `{4}`: id 4 is not deleted
and id 1 is not inserted, so a non-empty CSV does not always leave the store
with exactly the CSV's id set. -/
theorem C1_reconciliation_counterexample :
    csv_to_db (.rows [badRatingRow]) [sampleRec4] = (false, [sampleRec4]) ∧
    ([sampleRec4].map Record.id = [4] ∧ [badRatingRow].map Row.id = [1]) := by
  decide

/-- C1 (amended): for every non-empty CSV snapshot with distinct ids and
every store with distinct ids, a reconciliation run that succeeds (that is,
every field coercion parses) leaves the store with id set exactly the CSV id
set: every store row whose id is absent from the CSV is deleted, every CSV
row is present with its CSV-sourced coerced field values (inserted when its
id was new, overwriting the stored row when it existed), and each id occurs
exactly once. -/
theorem C1_reconciliation_amended (rs : List Row) (db db2 : List Record)
    (hne : rs ≠ []) (hcsv : (rs.map Row.id).Nodup)
    (hdb : (db.map Record.id).Nodup)
    (hok : csv_to_db (.rows rs) db = (true, db2)) :
    (∀ i, i ∈ db2.map Record.id ↔ i ∈ rs.map Row.id) ∧
    (∀ row ∈ rs, ∃ rec, coerceRow row = .ok rec ∧ rec ∈ db2) ∧
    (db2.map Record.id).Nodup := by
  have hises : rs.isEmpty = false := by
    cases rs with
    | nil => exact absurd rfl hne
    | cons a l => rfl
  simp only [csv_to_db, hises, Bool.false_eq_true, if_false] at hok
  cases happ : applyRows rs (keptRows rs db) with
  | error e => rw [happ] at hok; simp at hok
  | ok d =>
    rw [happ] at hok
    simp only [Prod.mk.injEq, true_and] at hok
    subst hok
    have hkept : ((keptRows rs db).map Record.id).Nodup :=
      List.Nodup.sublist (List.Sublist.map Record.id (List.filter_sublist db)) hdb
    refine ⟨?_, applyRows_lands hcsv happ, applyRows_nodup hkept happ⟩
    intro i
    constructor
    · intro hi
      rcases List.mem_map.mp hi with ⟨rec, hrec, rfl⟩
      rcases applyRows_mem_src happ hrec with hk | ⟨row, hrow, hco⟩
      · have := (List.mem_filter.mp hk).2
        simpa [List.contains_iff_exists_mem_beq, List.mem_map] using this
      · rw [coerceRow_id row rec hco]
        exact List.mem_map_of_mem Row.id hrow
    · intro hi
      rcases List.mem_map.mp hi with ⟨row, hrow, rfl⟩
      rcases applyRows_lands hcsv happ row hrow with ⟨rec, hco, hrec⟩
      rw [← coerceRow_id row rec hco]
      exact List.mem_map_of_mem Record.id hrec

theorem C1_reconciliation_amended_witness :
    (∀ i, i ∈ ((csv_to_db (.rows [sampleRow1]) [sampleRec4]).2.map Record.id) ↔
      i ∈ [sampleRow1].map Row.id) ∧
    (∀ row ∈ [sampleRow1], ∃ rec, coerceRow row = .ok rec ∧
      rec ∈ (csv_to_db (.rows [sampleRow1]) [sampleRec4]).2) ∧
    ((csv_to_db (.rows [sampleRow1]) [sampleRec4]).2.map Record.id).Nodup := by
  have h := C1_reconciliation_amended [sampleRow1] [sampleRec4]
    (csv_to_db (.rows [sampleRow1]) [sampleRec4]).2 (by decide) (by decide)
    (by decide) (by decide)
  exact h
